import Mathlib

/-!
Shallow embedding of `dsaprojeto1_local.py`, a single-file ETL pipeline:
extract daily price bars per ticker (yfinance), transform them into a
canonical pandas frame, and upsert them into a SQLite table with composite
primary key (ticker, data_pregao).

Modelling choices:
* A pandas DataFrame is a list of column names plus a list of rows
  (each row a list of SQL values, positionally aligned with the columns);
  the yfinance history frame additionally carries its date index.
* SQLite values are the inductive `SqlValue`; the table is a list of
  `DbRow`.  A connection carries the committed table and the current
  transaction draft; `commit` publishes the draft, `rollback` discards it.
* Logging is modelled as a returned list of `LogEvent`s; the external
  provider (yfinance) is a function parameter that either yields a raw
  frame or raises.
* Python functions that return `None` on every path are modelled with the
  executed branch made explicit (`LoadOutcome`), while the run-level
  return value of `main` is kept as `Unit`, faithful to `return`/fall-through.
-/

/-- A calendar date (the `.dt.date` part of a pandas timestamp). -/
structure DateD where
  y : Nat
  m : Nat
  d : Nat
  deriving DecidableEq, Repr

/-- A pandas timestamp: a calendar date plus a time-of-day component. -/
structure Timestamp where
  date : DateD
  hour : Nat
  minute : Nat
  second : Nat
  deriving DecidableEq, Repr

/-- A SQLite-storable value as it flows through the pipeline. -/
inductive SqlValue where
  | null
  | int (n : Int)
  | text (s : String)
  | ts (t : Timestamp)
  | date (d : DateD)
  deriving DecidableEq, Repr

/-- One structured logging event (level plus message). -/
inductive LogEvent where
  | info (msg : String)
  | warning (msg : String)
  | error (msg : String)
  | critical (msg : String)
  deriving DecidableEq, Repr

/-- Rendering of a value inside a log message (`f-string` interpolation). -/
def svShow : SqlValue → String
  | SqlValue.null => "None"
  | SqlValue.int n => toString n
  | SqlValue.text s => s
  | SqlValue.ts t => toString t.date.y ++ "-" ++ toString t.date.m ++ "-" ++ toString t.date.d
  | SqlValue.date d => toString d.y ++ "-" ++ toString d.m ++ "-" ++ toString d.d

/-- `pd.to_datetime(v).dt.date`: truncate a timestamp to its calendar date. -/
def toDateVal : SqlValue → SqlValue
  | SqlValue.ts t => SqlValue.date t.date
  | SqlValue.date d => SqlValue.date d
  | v => v

/-- A pandas DataFrame: named columns and positionally aligned rows. -/
structure Frame where
  cols : List String
  rows : List (List SqlValue)
  deriving DecidableEq, Repr

/-- The frame returned by `yf.Ticker(t).history(period='5d')`: a data frame
indexed by the trading date. -/
structure RawFrame where
  index : List SqlValue
  cols : List String
  rows : List (List SqlValue)
  deriving DecidableEq, Repr

/-- The cell of a positionally aligned row at the (first) column called
`name`; `null` when the column is absent. -/
def cellAt (cols : List String) (row : List SqlValue) (name : String) : SqlValue :=
  match cols, row with
  | [], _ => SqlValue.null
  | _ :: _, [] => SqlValue.null
  | c :: cs, v :: vs => if c = name then v else cellAt cs vs name

/-- Replace the cell at the (first) column called `name`. -/
def setCell (cols : List String) (row : List SqlValue) (name : String) (v : SqlValue) : List SqlValue :=
  match cols, row with
  | [], _ => row
  | _ :: _, [] => []
  | c :: cs, x :: xs => if c = name then v :: xs else x :: setCell cs xs name v

/-- `df[name] = scalar`: overwrite the column if present, else append it. -/
def Frame.setCol (f : Frame) (name : String) (v : SqlValue) : Frame :=
  if f.cols.contains name then
    ⟨f.cols, f.rows.map (fun r => setCell f.cols r name v)⟩
  else
    ⟨f.cols ++ [name], f.rows.map (fun r => r ++ [v])⟩

/-- `df.rename(columns=...)`. -/
def Frame.rename (f : Frame) (m : String → String) : Frame :=
  ⟨f.cols.map m, f.rows⟩

/-- `df[[c for c in names if c in df.columns]].copy()`: the projection the
Transformer performs — only names actually present are kept. -/
def Frame.select (f : Frame) (names : List String) : Frame :=
  ⟨names.filter (fun n => f.cols.contains n),
   f.rows.map (fun r => (names.filter (fun n => f.cols.contains n)).map (fun n => cellAt f.cols r n))⟩

/-- `df[name] = g(df[name])` applied elementwise to an existing column. -/
def Frame.mapCol (f : Frame) (name : String) (g : SqlValue → SqlValue) : Frame :=
  ⟨f.cols, f.rows.map (fun r => setCell f.cols r name (g (cellAt f.cols r name)))⟩

/-- Read one column of the frame, `none` when absent. -/
def Frame.getCol (f : Frame) (name : String) : Option (List SqlValue) :=
  if f.cols.contains name then some (f.rows.map (fun r => cellAt f.cols r name)) else none

/-- `df.reset_index()`: the date index becomes a leading `Date` column. -/
def resetIndex (rf : RawFrame) : Frame :=
  ⟨"Date" :: rf.cols, List.zipWith (fun i r => i :: r) rf.index rf.rows⟩

/-- The column rename dictionary of `dsa_limpa_e_transforma_dados`. -/
def renameMap (s : String) : String :=
  if s = "Date" then "data_pregao"
  else if s = "Open" then "abertura"
  else if s = "High" then "alta"
  else if s = "Low" then "baixa"
  else if s = "Close" then "fechamento"
  else if s = "Volume" then "volume"
  else s

/-- `colunas_desejadas` from the source. -/
def colunas_desejadas : List String :=
  ["ticker", "data_pregao", "abertura", "alta", "baixa", "fechamento", "volume", "datetime_coleta"]

/-- The column set of a standard yfinance OHLCV history frame. -/
def yfinanceCols : List String := ["Open", "High", "Low", "Close", "Volume"]

/-- The instrument universe `ACOES_PARA_ACOMPANHAR`. -/
def ACOES_PARA_ACOMPANHAR : List String :=
  ["PETR4.SA", "VALE3.SA", "ITUB4.SA", "BBDC4.SA", "ABEV3.SA", "MGLU3.SA", "WEGE3.SA", "VLTA.CN"]

/-- Outcome of one call to the external provider `yf.Ticker(t).history(...)`:
either a raw frame (possibly with zero rows) or a raised exception. -/
inductive ProviderResult where
  | ok (rf : RawFrame)
  | raises (msg : String)

/-- `dsa_extrai_dados_acao`: fetch the 5-day history of one ticker.
Returns the raw frame, or `none` both when the provider yields an empty
frame (logged as a warning) and when it raises (logged as an error). -/
def dsa_extrai_dados_acao (provider : String → ProviderResult) (ticker : String) :
    Option RawFrame × List LogEvent :=
  match provider ticker with
  | ProviderResult.raises e =>
      (none, [LogEvent.info ("Extraindo dados para o ticker: " ++ ticker ++ "..."),
              LogEvent.error ("Falha ao extrair dados para " ++ ticker ++ ": " ++ e)])
  | ProviderResult.ok dados =>
      if dados.index.isEmpty then
        (none, [LogEvent.info ("Extraindo dados para o ticker: " ++ ticker ++ "..."),
                LogEvent.warning ("Nao foram encontrados dados para o ticker " ++ ticker ++ ".")])
      else
        (some dados, [LogEvent.info ("Extraindo dados para o ticker: " ++ ticker ++ "...")])

/-- One column declaration of the `CREATE TABLE` statement. -/
structure ColumnDef where
  name : String
  sqlType : String
  notNull : Bool
  deriving DecidableEq, Repr

/-- `NOME_TABELA` from the source. -/
def NOME_TABELA : String := "dados_acoes_diario"

/-- The column list of `CREATE TABLE IF NOT EXISTS dados_acoes_diario`. -/
def tableColumns : List ColumnDef :=
  [⟨"ticker", "TEXT", true⟩,
   ⟨"data_pregao", "DATE", true⟩,
   ⟨"abertura", "REAL", false⟩,
   ⟨"alta", "REAL", false⟩,
   ⟨"baixa", "REAL", false⟩,
   ⟨"fechamento", "REAL", false⟩,
   ⟨"volume", "INTEGER", false⟩,
   ⟨"datetime_coleta", "TEXT", false⟩]

/-- `PRIMARY KEY (ticker, data_pregao)` from the schema. -/
def primaryKeyCols : List String := ["ticker", "data_pregao"]

/-- One stored row of `dados_acoes_diario`. -/
structure DbRow where
  ticker : SqlValue
  data_pregao : SqlValue
  abertura : SqlValue
  alta : SqlValue
  baixa : SqlValue
  fechamento : SqlValue
  volume : SqlValue
  datetime_coleta : SqlValue
  deriving DecidableEq, Repr

/-- A SQLite statement failure as surfaced through `sqlite3.Error`. -/
inductive SqlError where
  | notNullViolation
  | bindingCountMismatch
  deriving DecidableEq, Repr

/-- Pretty-printing of a SQLite error for the log message. -/
def sqlErrShow : SqlError → String
  | SqlError.notNullViolation => "NOT NULL constraint failed"
  | SqlError.bindingCountMismatch => "Incorrect number of bindings supplied"

/-- A SQLite connection: the durably committed table plus the draft state
of the currently open transaction. -/
structure Conn where
  committed : List DbRow
  draft : List DbRow
  deriving DecidableEq, Repr

/-- `conn.commit()`: publish the draft durably. -/
def Conn.commit (c : Conn) : Conn := ⟨c.draft, c.draft⟩

/-- `conn.rollback()`: discard the draft, back to the committed state. -/
def Conn.rollback (c : Conn) : Conn := ⟨c.committed, c.committed⟩

/-- The composite primary key of a row. -/
def keyOf (r : DbRow) : SqlValue × SqlValue := (r.ticker, r.data_pregao)

/-- `ON CONFLICT(ticker, data_pregao)`: key equality between rows. -/
def sameKey (a b : DbRow) : Bool := a.ticker == b.ticker && a.data_pregao == b.data_pregao

/-- Does the row violate one of the two `NOT NULL` key constraints? -/
def nullKey (r : DbRow) : Bool := r.ticker == SqlValue.null || r.data_pregao == SqlValue.null

/-- On conflict, `DO UPDATE SET` overwrites the six non-key columns with
the excluded (new) row; since the keys agree, the updated row is `r`. -/
def replaceIf (e r : DbRow) : DbRow := if sameKey e r then r else e

/-- The table after one successful upsert statement: update in place on a
key conflict, append otherwise. -/
def applyRow (t : List DbRow) (r : DbRow) : List DbRow :=
  if t.any (fun e => sameKey e r) then t.map (fun e => replaceIf e r)
  else t ++ [r]

/-- One `INSERT ... ON CONFLICT(ticker, data_pregao) DO UPDATE` statement
against the table, honouring the schema constraints. -/
def upsert (t : List DbRow) (r : DbRow) : Except SqlError (List DbRow) :=
  if nullKey r then Except.error SqlError.notNullViolation
  else Except.ok (applyRow t r)

/-- `tuple(row)` bound to the eight placeholders of the insert statement;
any other arity is a binding error (`sqlite3.ProgrammingError`). -/
def bindRow (vals : List SqlValue) : Except SqlError DbRow :=
  match vals with
  | [t, d, a, al, b, f, v, dc] => Except.ok ⟨t, d, a, al, b, f, v, dc⟩
  | _ => Except.error SqlError.bindingCountMismatch

/-- Whether one statement would fail, independently of the table state. -/
def stmtError (vals : List SqlValue) : Option SqlError :=
  match bindRow vals with
  | Except.error e => some e
  | Except.ok r => if nullKey r then some SqlError.notNullViolation else none

/-- The first statement failure in a batch, if any. -/
def firstError : List (List SqlValue) → Option SqlError
  | [] => none
  | v :: rest =>
    match stmtError v with
    | some e => some e
    | none => firstError rest

/-- `cursor.execute(query, tuple(row))`: bind and upsert on the draft. -/
def execStmt (c : Conn) (vals : List SqlValue) : Conn × Option SqlError :=
  match bindRow vals with
  | Except.error e => (c, some e)
  | Except.ok r =>
    match upsert c.draft r with
    | Except.error e => (c, some e)
    | Except.ok d2 => (⟨c.committed, d2⟩, none)

/-- The `for _, row in df.iterrows()` loop: execute each statement in turn,
raising out of the loop at the first failure. -/
def execStatements (c : Conn) : List (List SqlValue) → Conn × Option SqlError
  | [] => (c, none)
  | v :: rest =>
    match execStmt c v with
    | (c2, some e) => (c2, some e)
    | (c2, none) => execStatements c2 rest

/-- Which branch of `dsa_carrega_dados` ran (its Python return value is
always `None`; the branch is observable through commit/rollback and log). -/
inductive LoadOutcome where
  | nothingToLoad
  | loaded
  | loadError
  deriving DecidableEq, Repr

/-- `dsa_carrega_dados`: empty input is a logged no-op; otherwise all row
upserts run in one transaction, committed at the end, or rolled back as a
whole on the first `sqlite3.Error`. -/
def dsa_carrega_dados (df : Option Frame) (conn : Conn) : Conn × LoadOutcome × List LogEvent :=
  match df with
  | none =>
    (conn, LoadOutcome.nothingToLoad,
     [LogEvent.warning "DataFrame vazio, nada para carregar no banco de dados."])
  | some f =>
    if f.rows.isEmpty then
      (conn, LoadOutcome.nothingToLoad,
       [LogEvent.warning "DataFrame vazio, nada para carregar no banco de dados."])
    else
      match execStatements conn f.rows with
      | (c2, none) =>
        (c2.commit, LoadOutcome.loaded,
         [LogEvent.info ("Dados para o ticker " ++
            svShow (cellAt f.cols (f.rows.headD []) "ticker") ++
            " carregados/atualizados com sucesso.")])
      | (c2, some e) =>
        (c2.rollback, LoadOutcome.loadError,
         [LogEvent.error ("Erro ao carregar dados no banco de dados: " ++ sqlErrShow e)])

/-- `dsa_limpa_e_transforma_dados`: `None`/empty input yields `none`;
otherwise reset the index, stamp `ticker` and `datetime_coleta` (the `now`
argument models the single `datetime.now()` call), rename the provider
columns, project onto the desired columns that are present, and truncate
`data_pregao` to a calendar date. -/
def dsa_limpa_e_transforma_dados (df_bruto : Option RawFrame) (ticker : String) (now : String) :
    Option Frame × List LogEvent :=
  match df_bruto with
  | none => (none, [])
  | some rf =>
    if rf.index.isEmpty then (none, [])
    else
      (some ((((((resetIndex rf).setCol "ticker" (SqlValue.text ticker)).setCol
          "datetime_coleta" (SqlValue.text now)).rename renameMap).select
          colunas_desejadas).mapCol "data_pregao" toDateVal),
       [LogEvent.info ("Transformando dados para o ticker: " ++ ticker ++ "...")])

/-- `dsa_cria_ou_conecta_banco`: `sqlite3.connect` plus the idempotent
`CREATE TABLE IF NOT EXISTS`.  The environment argument is the current
contents of the database file (`none` models a `sqlite3.Error`); on
success the returned connection starts a clean transaction over them. -/
def dsa_cria_ou_conecta_banco (db : Option (List DbRow)) : Option Conn × List LogEvent :=
  match db with
  | none => (none, [LogEvent.error "Erro ao criar/conectar ao banco de dados."])
  | some st =>
    (some ⟨st, st⟩,
     [LogEvent.info "Banco de dados e tabela verificados/criados com sucesso."])

/-- One iteration of the `for ticker in ACOES_PARA_ACOMPANHAR` loop in
`main`: extract, transform, and either load or log the skip warning. -/
def processTicker (provider : String → ProviderResult) (now : String) (conn : Conn)
    (ticker : String) : Conn × List LogEvent :=
  match dsa_extrai_dados_acao provider ticker with
  | (dados_brutos, l1) =>
    match dsa_limpa_e_transforma_dados dados_brutos ticker now with
    | (some df, l2) =>
      match dsa_carrega_dados (some df) conn with
      | (c2, _, l3) => (c2, l1 ++ l2 ++ l3)
    | (none, l2) =>
      (conn, l1 ++ l2 ++
        [LogEvent.warning ("Processamento pulado para o ticker " ++ ticker ++
          " devido a ausencia de dados.")])

/-- The whole per-ticker loop of `main`, threading the shared connection. -/
def runLoop (provider : String → ProviderResult) (now : String) (conn : Conn) :
    List String → Conn × List LogEvent
  | [] => (conn, [])
  | t :: rest =>
    ((runLoop provider now (processTicker provider now conn t).1 rest).1,
     (processTicker provider now conn t).2 ++
       (runLoop provider now (processTicker provider now conn t).1 rest).2)

/-- Observable result of one run of `main`: the final database contents
(`none` when the initial connection failed and nothing is observable
through this run), the emitted log, how many times `sqlite3.connect` and
`conn.close()` ran, and the Python return value of `main` (always `None`,
modelled as `Unit`). -/
structure RunResult where
  store : Option (List DbRow)
  log : List LogEvent
  connects : Nat
  closes : Nat
  ret : Unit
  deriving DecidableEq, Repr

/-- `main`, generalised over the instrument universe: connect (fatal on
failure), loop over the tickers, close the connection once at the end. -/
def runPipeline (tickers : List String) (provider : String → ProviderResult)
    (db : Option (List DbRow)) (now : String) : RunResult :=
  match dsa_cria_ou_conecta_banco db with
  | (none, lc) =>
    { store := none,
      log := LogEvent.info "--- INICIANDO A EXECUCAO DO PIPELINE FINANCEIRO ---" :: lc ++
        [LogEvent.critical
          "Nao foi possivel estabelecer conexao com o banco de dados. Encerrando o pipeline."],
      connects := 1, closes := 0, ret := () }
  | (some conn, lc) =>
    match runLoop provider now conn tickers with
    | (c2, ll) =>
      { store := some c2.committed,
        log := LogEvent.info "--- INICIANDO A EXECUCAO DO PIPELINE FINANCEIRO ---" :: lc ++ ll ++
          [LogEvent.info "Conexao com o banco de dados fechada.",
           LogEvent.info "--- PIPELINE EXECUTADO COM SUCESSO ---"],
        connects := 1, closes := 1, ret := () }

/-- The source's `main` (renamed, since Lean reserves `main` for program
entry points): the loop runs over the hardcoded instrument universe. -/
def pipelineMain (provider : String → ProviderResult) (db : Option (List DbRow)) (now : String) :
    RunResult :=
  runPipeline ACOES_PARA_ACOMPANHAR provider db now

/-- The keys of the stored rows, in storage order. -/
def keyList (t : List DbRow) : List (SqlValue × SqlValue) := t.map keyOf

/-- `SELECT * WHERE ticker = k.1 AND data_pregao = k.2` (first match). -/
def lookupKey (t : List DbRow) (k : SqlValue × SqlValue) : Option DbRow :=
  t.find? (fun e => keyOf e == k)

/-- The table invariant enforced by the composite primary key: no two rows
share a key. -/
def nodupKeys (t : List DbRow) : Prop := (keyList t).Nodup

instance : DecidablePred nodupKeys := fun t => List.nodupDecidable (keyList t)

/-- The invariant enforced by the two `NOT NULL` declarations: every stored
row has non-null key columns. -/
def rowKeysNonNull (t : List DbRow) : Bool := t.all (fun r => !nullKey r)

/-- A connection with no statements pending in its transaction; this holds
whenever `dsa_carrega_dados` is entered during a run. -/
def clean (c : Conn) : Prop := c.draft = c.committed

/-- The batch of rows successfully bound, when every binding succeeds. -/
def bindAll : List (List SqlValue) → Option (List DbRow)
  | [] => some []
  | v :: rest =>
    match bindRow v with
    | Except.error _ => none
    | Except.ok r =>
      match bindAll rest with
      | none => none
      | some rs => some (r :: rs)

/-- Pure effect of a successful batch on the table. -/
def applyAll (t : List DbRow) (rs : List DbRow) : List DbRow := rs.foldl applyRow t

/-- The most recent record of the batch carrying the given key. -/
def lastWrite : List DbRow → SqlValue × SqlValue → Option DbRow
  | [], _ => none
  | r :: rest, k =>
    match lastWrite rest k with
    | some x => some x
    | none => if keyOf r = k then some r else none

/-- The ticker is skipped by this run: its extraction or transformation
yields nothing, or its transformed frame is empty, or some statement of its
batch fails (so the whole batch is rolled back). -/
def tickerSkipped (provider : String → ProviderResult) (now ticker : String) : Bool :=
  match (dsa_limpa_e_transforma_dados (dsa_extrai_dados_acao provider ticker).1 ticker now).1 with
  | none => true
  | some f => f.rows.isEmpty || (firstError f.rows).isSome

/-- A provider that answers every request successfully with zero
observations (delisted instrument / holiday window). -/
def provVazio : String → ProviderResult :=
  fun _ => ProviderResult.ok ⟨[], yfinanceCols, []⟩

/-- A provider that raises on every request (network failure). -/
def provFalha : String → ProviderResult :=
  fun _ => ProviderResult.raises "timeout"

/-- Five valid daily bars, as the provider returns them for `AAA` in the
end-to-end scenario. -/
def rawAAA : RawFrame :=
  ⟨[SqlValue.ts ⟨⟨2024, 3, 1⟩, 0, 0, 0⟩, SqlValue.ts ⟨⟨2024, 3, 4⟩, 0, 0, 0⟩,
    SqlValue.ts ⟨⟨2024, 3, 5⟩, 0, 0, 0⟩, SqlValue.ts ⟨⟨2024, 3, 6⟩, 0, 0, 0⟩,
    SqlValue.ts ⟨⟨2024, 3, 7⟩, 0, 0, 0⟩],
   ["Open", "High", "Low", "Close", "Volume"],
   [[SqlValue.int 1, SqlValue.int 2, SqlValue.int 0, SqlValue.int 1, SqlValue.int 10],
    [SqlValue.int 2, SqlValue.int 3, SqlValue.int 1, SqlValue.int 2, SqlValue.int 20],
    [SqlValue.int 3, SqlValue.int 4, SqlValue.int 2, SqlValue.int 3, SqlValue.int 30],
    [SqlValue.int 4, SqlValue.int 5, SqlValue.int 3, SqlValue.int 4, SqlValue.int 40],
    [SqlValue.int 5, SqlValue.int 6, SqlValue.int 4, SqlValue.int 5, SqlValue.int 50]]⟩

/-- The end-to-end scenario provider: 5 valid rows for `AAA`, an exception
for every other ticker. -/
def provC8 : String → ProviderResult :=
  fun t => if t = "AAA" then ProviderResult.ok rawAAA else ProviderResult.raises "HTTP Error 404"

/-- A comparison provider for which every ticker succeeds. -/
def provAllOk : String → ProviderResult :=
  fun _ => ProviderResult.ok rawAAA

/-! ## General helper lemmas -/

theorem list_map_id_of {α : Type} (l : List α) (f : α → α) (h : ∀ a ∈ l, f a = a) :
    l.map f = l := by
  induction l with
  | nil => rfl
  | cons x xs ih =>
    simp only [List.map_cons, h x (List.mem_cons_self x xs)]
    rw [ih (fun a ha => h a (List.mem_cons_of_mem x ha))]

theorem list_map_congr {α β : Type} (l : List α) (f g : α → β) (h : ∀ a ∈ l, f a = g a) :
    l.map f = l.map g := by
  induction l with
  | nil => rfl
  | cons x xs ih =>
    simp only [List.map_cons, h x (List.mem_cons_self x xs)]
    rw [ih (fun a ha => h a (List.mem_cons_of_mem x ha))]

theorem zip_map_head (g : SqlValue → SqlValue) (F : List SqlValue → SqlValue)
    (hF : ∀ i r, F (i :: r) = g i) :
    ∀ (idx : List SqlValue) (rows : List (List SqlValue)), rows.length = idx.length →
      (List.zipWith (fun i r => i :: r) idx rows).map F = idx.map g := by
  intro idx
  induction idx with
  | nil => intro rows _; simp
  | cons i idx ih =>
    intro rows hlen
    cases rows with
    | nil => simp at hlen
    | cons r rows =>
      simp only [List.zipWith_cons_cons, List.map_cons, hF]
      rw [ih rows (by simpa using hlen)]

theorem sameKey_iff (a b : DbRow) : sameKey a b = true ↔ keyOf a = keyOf b := by
  simp [sameKey, keyOf, Prod.ext_iff]

theorem keyOf_replaceIf (e r : DbRow) : keyOf (replaceIf e r) = keyOf e := by
  unfold replaceIf
  split
  · rename_i h
    exact ((sameKey_iff e r).1 h).symm
  · rfl

theorem keyList_map_replace (t : List DbRow) (r : DbRow) :
    keyList (t.map (fun e => replaceIf e r)) = keyList t := by
  unfold keyList
  rw [List.map_map]
  exact list_map_congr t _ keyOf (fun e _ => keyOf_replaceIf e r)

/-! ## Transformer: date normalization (C9) and absent optional columns (C6) -/

/-- Claim C9: for every raw observation transformed (any number of rows of a
standard OHLCV history frame, any timestamps), the Transformer normalizes the
date field to calendar-date precision: the stored `data_pregao` column is
exactly the date part of each raw timestamp, with no time component. -/
theorem transform_truncates_trading_date (idx : List SqlValue) (rows : List (List SqlValue))
    (t now : String) (hlen : rows.length = idx.length) (hne : idx ≠ []) :
    ∃ f, (dsa_limpa_e_transforma_dados (some ⟨idx, yfinanceCols, rows⟩) t now).1 = some f
      ∧ f.getCol "data_pregao" = some (idx.map toDateVal) := by
  cases idx with
  | nil => exact absurd rfl hne
  | cons i0 idx' =>
    refine ⟨_, rfl, ?_⟩
    simp +decide [dsa_limpa_e_transforma_dados, resetIndex, Frame.setCol, Frame.rename,
      Frame.select, Frame.mapCol, Frame.getCol, yfinanceCols, colunas_desejadas, renameMap]
    exact zip_map_head toDateVal _ (fun i r => rfl) (i0 :: idx') rows hlen

/-- Witness for C9 at the spec's concrete example: the raw timestamp
`2024-03-01T00:00:00` produces a stored `trading_date` of exactly
`2024-03-01`. -/
theorem transform_truncates_trading_date_witness :
    ∃ f, (dsa_limpa_e_transforma_dados
        (some ⟨[SqlValue.ts ⟨⟨2024, 3, 1⟩, 0, 0, 0⟩], yfinanceCols,
               [[SqlValue.int 10, SqlValue.int 12, SqlValue.int 9, SqlValue.int 11, SqlValue.int 1000]]⟩)
        "PETR4.SA" "2024-03-02 10:00:00").1 = some f
      ∧ f.getCol "data_pregao" = some [SqlValue.date ⟨2024, 3, 1⟩] :=
  transform_truncates_trading_date
    [SqlValue.ts ⟨⟨2024, 3, 1⟩, 0, 0, 0⟩]
    [[SqlValue.int 10, SqlValue.int 12, SqlValue.int 9, SqlValue.int 11, SqlValue.int 1000]]
    "PETR4.SA" "2024-03-02 10:00:00" rfl (by decide)

/-- Counterexample to claim C6 as stated: on a non-empty raw frame whose
observations lack the optional `Volume` field, the produced canonical frame
does not contain a `volume` column at all (so no record carries a
null-equivalent `volume` value — the field is omitted). -/
theorem transform_absent_volume_counterexample :
    ((dsa_limpa_e_transforma_dados
        (some ⟨[SqlValue.ts ⟨⟨2024, 3, 1⟩, 0, 0, 0⟩], ["Open", "High", "Low", "Close"],
               [[SqlValue.int 10, SqlValue.int 12, SqlValue.int 9, SqlValue.int 11]]⟩)
        "PETR4.SA" "2024-03-02 10:00:00").1.map (fun f => f.cols.contains "volume")) = some false
    ∧ ((dsa_limpa_e_transforma_dados
        (some ⟨[SqlValue.ts ⟨⟨2024, 3, 1⟩, 0, 0, 0⟩], ["Open", "High", "Low", "Close"],
               [[SqlValue.int 10, SqlValue.int 12, SqlValue.int 9, SqlValue.int 11]]⟩)
        "PETR4.SA" "2024-03-02 10:00:00").1.map (fun f => f.cols)) =
      some ["ticker", "data_pregao", "abertura", "alta", "baixa", "fechamento", "datetime_coleta"] := by
  exact ⟨rfl, rfl⟩

/-- Claim C6 as amended: for every non-empty raw input lacking the optional
`Volume` column, the Transformer does not fail (it returns a frame), but the
absent field is omitted from the canonical records entirely — the projection
keeps only the desired columns that are present — rather than being carried
as a null value. -/
theorem transform_absent_column_omitted (idx : List SqlValue) (rows : List (List SqlValue))
    (t now : String) (hne : idx ≠ []) :
    ∃ f, (dsa_limpa_e_transforma_dados (some ⟨idx, ["Open", "High", "Low", "Close"], rows⟩) t now).1
        = some f
      ∧ f.cols = ["ticker", "data_pregao", "abertura", "alta", "baixa", "fechamento", "datetime_coleta"]
      ∧ "volume" ∉ f.cols := by
  cases idx with
  | nil => exact absurd rfl hne
  | cons i0 idx' =>
    refine ⟨_, rfl, rfl, ?_⟩
    intro hmem
    simp +decide [dsa_limpa_e_transforma_dados, resetIndex, Frame.setCol, Frame.rename,
      Frame.select, Frame.mapCol, colunas_desejadas, renameMap] at hmem

/-- Witness for C6 (amended) at a concrete one-row volume-less frame. -/
theorem transform_absent_column_omitted_witness :
    ∃ f, (dsa_limpa_e_transforma_dados
        (some ⟨[SqlValue.ts ⟨⟨2024, 3, 1⟩, 0, 0, 0⟩], ["Open", "High", "Low", "Close"],
               [[SqlValue.int 10, SqlValue.int 12, SqlValue.int 9, SqlValue.int 11]]⟩)
        "VLTA.CN" "2024-03-02 10:00:00").1 = some f
      ∧ f.cols = ["ticker", "data_pregao", "abertura", "alta", "baixa", "fechamento", "datetime_coleta"]
      ∧ "volume" ∉ f.cols :=
  transform_absent_column_omitted [SqlValue.ts ⟨⟨2024, 3, 1⟩, 0, 0, 0⟩]
    [[SqlValue.int 10, SqlValue.int 12, SqlValue.int 9, SqlValue.int 11]]
    "VLTA.CN" "2024-03-02 10:00:00" (by decide)

/-! ## Extractor: no-data versus error (C5) -/

/-- Counterexample to claim C5 as stated: a successful-but-empty provider
response and a raised provider error produce the **same** returned value
(`None` both times), so the caller cannot tell the two outcomes apart from
the returned value alone. -/
theorem extract_return_value_ambiguous :
    (dsa_extrai_dados_acao provVazio "PETR4.SA").1 = none
    ∧ (dsa_extrai_dados_acao provFalha "PETR4.SA").1 = none
    ∧ (dsa_extrai_dados_acao provVazio "PETR4.SA").1 = (dsa_extrai_dados_acao provFalha "PETR4.SA").1 := by
  exact ⟨rfl, rfl, rfl⟩

/-- Claim C5 as amended: both a successful empty response and a provider
error make the Extractor return `None`; the two outcomes are distinguished
only through the emitted log events (a warning for no data, an error for a
provider failure), which always differ. -/
theorem extract_outcomes_logged_distinctly (P Q : String → ProviderResult) (t : String)
    (rf : RawFrame) (m : String) (hok : P t = ProviderResult.ok rf) (hempty : rf.index = [])
    (hraises : Q t = ProviderResult.raises m) :
    dsa_extrai_dados_acao P t =
      (none, [LogEvent.info ("Extraindo dados para o ticker: " ++ t ++ "..."),
              LogEvent.warning ("Nao foram encontrados dados para o ticker " ++ t ++ ".")])
    ∧ dsa_extrai_dados_acao Q t =
      (none, [LogEvent.info ("Extraindo dados para o ticker: " ++ t ++ "..."),
              LogEvent.error ("Falha ao extrair dados para " ++ t ++ ": " ++ m)])
    ∧ (dsa_extrai_dados_acao P t).2 ≠ (dsa_extrai_dados_acao Q t).2 := by
  have h1 : dsa_extrai_dados_acao P t =
      (none, [LogEvent.info ("Extraindo dados para o ticker: " ++ t ++ "..."),
              LogEvent.warning ("Nao foram encontrados dados para o ticker " ++ t ++ ".")]) := by
    unfold dsa_extrai_dados_acao
    rw [hok]
    simp [hempty]
  have h2 : dsa_extrai_dados_acao Q t =
      (none, [LogEvent.info ("Extraindo dados para o ticker: " ++ t ++ "..."),
              LogEvent.error ("Falha ao extrair dados para " ++ t ++ ": " ++ m)]) := by
    unfold dsa_extrai_dados_acao
    rw [hraises]
  refine ⟨h1, h2, ?_⟩
  rw [h1, h2]
  intro h
  simp at h

/-- Witness for C5 (amended) with a concrete empty provider and a concrete
raising provider. -/
theorem extract_outcomes_logged_distinctly_witness :
    dsa_extrai_dados_acao provVazio "PETR4.SA" =
      (none, [LogEvent.info "Extraindo dados para o ticker: PETR4.SA...",
              LogEvent.warning "Nao foram encontrados dados para o ticker PETR4.SA."])
    ∧ dsa_extrai_dados_acao provFalha "PETR4.SA" =
      (none, [LogEvent.info "Extraindo dados para o ticker: PETR4.SA...",
              LogEvent.error "Falha ao extrair dados para PETR4.SA: timeout"])
    ∧ (dsa_extrai_dados_acao provVazio "PETR4.SA").2 ≠ (dsa_extrai_dados_acao provFalha "PETR4.SA").2 :=
  extract_outcomes_logged_distinctly provVazio provFalha "PETR4.SA" ⟨[], yfinanceCols, []⟩
    "timeout" rfl rfl rfl

/-! ## Loader: transactional lemmas -/

theorem execStmt_committed (c : Conn) (v : List SqlValue) :
    ((execStmt c v).1).committed = c.committed := by
  unfold execStmt
  rcases hb : bindRow v with e | r
  · simp [hb]
  · rcases hu : upsert c.draft r with e | d2 <;> simp [hb, hu]

theorem execStatements_committed (rows : List (List SqlValue)) :
    ∀ c : Conn, ((execStatements c rows).1).committed = c.committed := by
  induction rows with
  | nil => intro c; rfl
  | cons v rest ih =>
    intro c
    unfold execStatements
    rcases h : execStmt c v with ⟨c2, err⟩
    have hc2 : c2.committed = c.committed := by
      have := execStmt_committed c v
      rw [h] at this
      exact this
    cases err with
    | none => simpa [hc2] using ih c2
    | some e => simpa using hc2

theorem execStmt_err (c : Conn) (v : List SqlValue) : (execStmt c v).2 = stmtError v := by
  unfold execStmt stmtError
  rcases hb : bindRow v with e | r
  · simp [hb]
  · unfold upsert
    cases hn : nullKey r <;> simp [hb, hn]

theorem execStatements_err (rows : List (List SqlValue)) :
    ∀ c : Conn, (execStatements c rows).2 = firstError rows := by
  induction rows with
  | nil => intro c; rfl
  | cons v rest ih =>
    intro c
    unfold execStatements firstError
    rcases h : execStmt c v with ⟨c2, err⟩
    have he : err = stmtError v := by
      have := execStmt_err c v
      rw [h] at this
      exact this
    cases err with
    | none => rw [← he]; simpa using ih c2
    | some e => rw [← he]

/-- Claim C2: a non-empty batch handed to one call of `dsa_carrega_dados`
runs under one transaction: if no statement fails, the post-statement draft
is committed as a whole; if any statement fails, the call returns the
failure branch and the connection is rolled back to exactly the committed
state it had before the call — earlier committed rows are untouched. -/
theorem load_batch_atomic (f : Frame) (c : Conn) (hne : f.rows ≠ []) :
    ((execStatements c f.rows).2 = none ∧
      dsa_carrega_dados (some f) c =
        (⟨((execStatements c f.rows).1).draft, ((execStatements c f.rows).1).draft⟩,
         LoadOutcome.loaded,
         [LogEvent.info ("Dados para o ticker " ++
            svShow (cellAt f.cols (f.rows.headD []) "ticker") ++
            " carregados/atualizados com sucesso.")]))
    ∨ (∃ e, (execStatements c f.rows).2 = some e ∧
      dsa_carrega_dados (some f) c =
        (⟨c.committed, c.committed⟩, LoadOutcome.loadError,
         [LogEvent.error ("Erro ao carregar dados no banco de dados: " ++ sqlErrShow e)])) := by
  have hC := execStatements_committed f.rows c
  have hni : f.rows.isEmpty = false := by
    cases h : f.rows with
    | nil => exact absurd h hne
    | cons a as => rfl
  unfold dsa_carrega_dados
  simp only [hni, Bool.false_eq_true, if_false]
  rcases hex : execStatements c f.rows with ⟨c2, err⟩
  rw [hex] at hC
  simp only at hC
  cases err with
  | none =>
    left
    exact ⟨rfl, rfl⟩
  | some e =>
    right
    refine ⟨e, rfl, ?_⟩
    simp [Conn.rollback, hC]

/-- Witness for C2 at a concrete one-record batch on an empty store (the
all-statements-succeed branch). -/
theorem load_batch_atomic_witness :
    ((execStatements ⟨[], []⟩ (Frame.mk colunas_desejadas
        [[SqlValue.text "AAA", SqlValue.date ⟨2024, 3, 1⟩, SqlValue.int 1, SqlValue.int 2,
          SqlValue.int 0, SqlValue.int 1, SqlValue.int 10, SqlValue.text "t0"]]).rows).2 = none ∧
      dsa_carrega_dados (some (Frame.mk colunas_desejadas
        [[SqlValue.text "AAA", SqlValue.date ⟨2024, 3, 1⟩, SqlValue.int 1, SqlValue.int 2,
          SqlValue.int 0, SqlValue.int 1, SqlValue.int 10, SqlValue.text "t0"]])) ⟨[], []⟩ =
        (⟨((execStatements ⟨[], []⟩ (Frame.mk colunas_desejadas
            [[SqlValue.text "AAA", SqlValue.date ⟨2024, 3, 1⟩, SqlValue.int 1, SqlValue.int 2,
              SqlValue.int 0, SqlValue.int 1, SqlValue.int 10, SqlValue.text "t0"]]).rows).1).draft,
          ((execStatements ⟨[], []⟩ (Frame.mk colunas_desejadas
            [[SqlValue.text "AAA", SqlValue.date ⟨2024, 3, 1⟩, SqlValue.int 1, SqlValue.int 2,
              SqlValue.int 0, SqlValue.int 1, SqlValue.int 10, SqlValue.text "t0"]]).rows).1).draft⟩,
         LoadOutcome.loaded,
         [LogEvent.info ("Dados para o ticker " ++
            svShow (cellAt (Frame.mk colunas_desejadas
              [[SqlValue.text "AAA", SqlValue.date ⟨2024, 3, 1⟩, SqlValue.int 1, SqlValue.int 2,
                SqlValue.int 0, SqlValue.int 1, SqlValue.int 10, SqlValue.text "t0"]]).cols
              ((Frame.mk colunas_desejadas
                [[SqlValue.text "AAA", SqlValue.date ⟨2024, 3, 1⟩, SqlValue.int 1, SqlValue.int 2,
                  SqlValue.int 0, SqlValue.int 1, SqlValue.int 10, SqlValue.text "t0"]]).rows.headD [])
              "ticker") ++
            " carregados/atualizados com sucesso.")]))
    ∨ (∃ e, (execStatements ⟨[], []⟩ (Frame.mk colunas_desejadas
          [[SqlValue.text "AAA", SqlValue.date ⟨2024, 3, 1⟩, SqlValue.int 1, SqlValue.int 2,
            SqlValue.int 0, SqlValue.int 1, SqlValue.int 10, SqlValue.text "t0"]]).rows).2 = some e ∧
      dsa_carrega_dados (some (Frame.mk colunas_desejadas
          [[SqlValue.text "AAA", SqlValue.date ⟨2024, 3, 1⟩, SqlValue.int 1, SqlValue.int 2,
            SqlValue.int 0, SqlValue.int 1, SqlValue.int 10, SqlValue.text "t0"]])) ⟨[], []⟩ =
        ((⟨[], []⟩ : Conn), LoadOutcome.loadError,
         [LogEvent.error ("Erro ao carregar dados no banco de dados: " ++ sqlErrShow e)])) :=
  load_batch_atomic (Frame.mk colunas_desejadas
    [[SqlValue.text "AAA", SqlValue.date ⟨2024, 3, 1⟩, SqlValue.int 1, SqlValue.int 2,
      SqlValue.int 0, SqlValue.int 1, SqlValue.int 10, SqlValue.text "t0"]]) ⟨[], []⟩ (by decide)

/-! ## Loader: last-write-wins upsert (C3) -/

theorem lookup_map_replace (r : DbRow) :
    ∀ t : List DbRow, (∃ e, e ∈ t ∧ sameKey e r = true) →
      lookupKey (t.map (fun e => replaceIf e r)) (keyOf r) = some r := by
  intro t
  induction t with
  | nil => rintro ⟨e, he, _⟩; cases he
  | cons a as ih =>
    rintro ⟨e, he, hk⟩
    by_cases ha : sameKey a r = true
    · have hra : replaceIf a r = r := by unfold replaceIf; rw [ha]; rfl
      unfold lookupKey
      simp only [List.map_cons, hra]
      rw [List.find?_cons_of_pos]
      simp
    · have hra : replaceIf a r = a := by
        unfold replaceIf
        simp [ha]
      unfold lookupKey
      simp only [List.map_cons, hra]
      rw [List.find?_cons_of_neg]
      · apply ih
        refine ⟨e, ?_, hk⟩
        rcases List.mem_cons.mp he with rfl | hmem
        · exact absurd hk ha
        · exact hmem
      · simp only [beq_iff_eq]
        intro hke
        exact ha ((sameKey_iff a r).mpr hke)

/-- Claim C3: loading one canonical record whose composite key already
exists in the store overwrites, in place, all six non-key columns of the
stored row with the new values (the stored row becomes exactly the new
record), leaves the key columns and the set of keys unchanged, and never
merges field by field. -/
theorem load_last_write_wins (c : Conn) (hclean : clean c) (vals : List SqlValue) (r : DbRow)
    (hbind : bindRow vals = Except.ok r) (hnn : nullKey r = false)
    (hmem : c.committed.any (fun e => sameKey e r) = true) :
    (dsa_carrega_dados (some ⟨colunas_desejadas, [vals]⟩) c).1 =
      ⟨c.committed.map (fun e => replaceIf e r), c.committed.map (fun e => replaceIf e r)⟩
    ∧ (dsa_carrega_dados (some ⟨colunas_desejadas, [vals]⟩) c).2.1 = LoadOutcome.loaded
    ∧ lookupKey ((dsa_carrega_dados (some ⟨colunas_desejadas, [vals]⟩) c).1).committed (keyOf r)
        = some r
    ∧ keyList ((dsa_carrega_dados (some ⟨colunas_desejadas, [vals]⟩) c).1).committed
        = keyList c.committed := by
  have hd : c.draft = c.committed := hclean
  have hexec : execStatements c [vals] =
      (⟨c.committed, c.committed.map (fun e => replaceIf e r)⟩, none) := by
    simp [execStatements, execStmt, hbind, upsert, hnn, hd, applyRow, hmem]
  have hconn : (dsa_carrega_dados (some ⟨colunas_desejadas, [vals]⟩) c).1 =
      ⟨c.committed.map (fun e => replaceIf e r), c.committed.map (fun e => replaceIf e r)⟩ := by
    unfold dsa_carrega_dados
    simp [hexec, Conn.commit]
  have hout : (dsa_carrega_dados (some ⟨colunas_desejadas, [vals]⟩) c).2.1 = LoadOutcome.loaded := by
    unfold dsa_carrega_dados
    simp [hexec]
  refine ⟨hconn, hout, ?_, ?_⟩
  · rw [hconn]
    exact lookup_map_replace r c.committed (by simpa using List.any_eq_true.mp hmem)
  · rw [hconn]
    exact keyList_map_replace c.committed r

/-- Witness for C3: upserting a record for the existing key
(`AAA`, 2024-03-01) with different prices and a new `collected_at`. -/
theorem load_last_write_wins_witness :
    (dsa_carrega_dados (some ⟨colunas_desejadas,
        [[SqlValue.text "AAA", SqlValue.date ⟨2024, 3, 1⟩, SqlValue.int 5, SqlValue.int 6,
          SqlValue.int 4, SqlValue.int 5, SqlValue.int 50, SqlValue.text "t1"]]⟩)
      ⟨[⟨SqlValue.text "AAA", SqlValue.date ⟨2024, 3, 1⟩, SqlValue.int 1, SqlValue.int 2,
         SqlValue.int 0, SqlValue.int 1, SqlValue.int 10, SqlValue.text "t0"⟩],
       [⟨SqlValue.text "AAA", SqlValue.date ⟨2024, 3, 1⟩, SqlValue.int 1, SqlValue.int 2,
         SqlValue.int 0, SqlValue.int 1, SqlValue.int 10, SqlValue.text "t0"⟩]⟩).1 =
      ⟨[⟨SqlValue.text "AAA", SqlValue.date ⟨2024, 3, 1⟩, SqlValue.int 1, SqlValue.int 2,
         SqlValue.int 0, SqlValue.int 1, SqlValue.int 10, SqlValue.text "t0"⟩].map
          (fun e => replaceIf e ⟨SqlValue.text "AAA", SqlValue.date ⟨2024, 3, 1⟩, SqlValue.int 5,
            SqlValue.int 6, SqlValue.int 4, SqlValue.int 5, SqlValue.int 50, SqlValue.text "t1"⟩),
       [⟨SqlValue.text "AAA", SqlValue.date ⟨2024, 3, 1⟩, SqlValue.int 1, SqlValue.int 2,
         SqlValue.int 0, SqlValue.int 1, SqlValue.int 10, SqlValue.text "t0"⟩].map
          (fun e => replaceIf e ⟨SqlValue.text "AAA", SqlValue.date ⟨2024, 3, 1⟩, SqlValue.int 5,
            SqlValue.int 6, SqlValue.int 4, SqlValue.int 5, SqlValue.int 50, SqlValue.text "t1"⟩)⟩
    ∧ (dsa_carrega_dados (some ⟨colunas_desejadas,
        [[SqlValue.text "AAA", SqlValue.date ⟨2024, 3, 1⟩, SqlValue.int 5, SqlValue.int 6,
          SqlValue.int 4, SqlValue.int 5, SqlValue.int 50, SqlValue.text "t1"]]⟩)
      ⟨[⟨SqlValue.text "AAA", SqlValue.date ⟨2024, 3, 1⟩, SqlValue.int 1, SqlValue.int 2,
         SqlValue.int 0, SqlValue.int 1, SqlValue.int 10, SqlValue.text "t0"⟩],
       [⟨SqlValue.text "AAA", SqlValue.date ⟨2024, 3, 1⟩, SqlValue.int 1, SqlValue.int 2,
         SqlValue.int 0, SqlValue.int 1, SqlValue.int 10, SqlValue.text "t0"⟩]⟩).2.1 =
      LoadOutcome.loaded
    ∧ lookupKey ((dsa_carrega_dados (some ⟨colunas_desejadas,
        [[SqlValue.text "AAA", SqlValue.date ⟨2024, 3, 1⟩, SqlValue.int 5, SqlValue.int 6,
          SqlValue.int 4, SqlValue.int 5, SqlValue.int 50, SqlValue.text "t1"]]⟩)
      ⟨[⟨SqlValue.text "AAA", SqlValue.date ⟨2024, 3, 1⟩, SqlValue.int 1, SqlValue.int 2,
         SqlValue.int 0, SqlValue.int 1, SqlValue.int 10, SqlValue.text "t0"⟩],
       [⟨SqlValue.text "AAA", SqlValue.date ⟨2024, 3, 1⟩, SqlValue.int 1, SqlValue.int 2,
         SqlValue.int 0, SqlValue.int 1, SqlValue.int 10, SqlValue.text "t0"⟩]⟩).1).committed
      (keyOf ⟨SqlValue.text "AAA", SqlValue.date ⟨2024, 3, 1⟩, SqlValue.int 5, SqlValue.int 6,
        SqlValue.int 4, SqlValue.int 5, SqlValue.int 50, SqlValue.text "t1"⟩) =
      some ⟨SqlValue.text "AAA", SqlValue.date ⟨2024, 3, 1⟩, SqlValue.int 5, SqlValue.int 6,
        SqlValue.int 4, SqlValue.int 5, SqlValue.int 50, SqlValue.text "t1"⟩
    ∧ keyList ((dsa_carrega_dados (some ⟨colunas_desejadas,
        [[SqlValue.text "AAA", SqlValue.date ⟨2024, 3, 1⟩, SqlValue.int 5, SqlValue.int 6,
          SqlValue.int 4, SqlValue.int 5, SqlValue.int 50, SqlValue.text "t1"]]⟩)
      ⟨[⟨SqlValue.text "AAA", SqlValue.date ⟨2024, 3, 1⟩, SqlValue.int 1, SqlValue.int 2,
         SqlValue.int 0, SqlValue.int 1, SqlValue.int 10, SqlValue.text "t0"⟩],
       [⟨SqlValue.text "AAA", SqlValue.date ⟨2024, 3, 1⟩, SqlValue.int 1, SqlValue.int 2,
         SqlValue.int 0, SqlValue.int 1, SqlValue.int 10, SqlValue.text "t0"⟩]⟩).1).committed =
      keyList [⟨SqlValue.text "AAA", SqlValue.date ⟨2024, 3, 1⟩, SqlValue.int 1, SqlValue.int 2,
         SqlValue.int 0, SqlValue.int 1, SqlValue.int 10, SqlValue.text "t0"⟩] :=
  load_last_write_wins
    ⟨[⟨SqlValue.text "AAA", SqlValue.date ⟨2024, 3, 1⟩, SqlValue.int 1, SqlValue.int 2,
       SqlValue.int 0, SqlValue.int 1, SqlValue.int 10, SqlValue.text "t0"⟩],
     [⟨SqlValue.text "AAA", SqlValue.date ⟨2024, 3, 1⟩, SqlValue.int 1, SqlValue.int 2,
       SqlValue.int 0, SqlValue.int 1, SqlValue.int 10, SqlValue.text "t0"⟩]⟩ rfl
    [SqlValue.text "AAA", SqlValue.date ⟨2024, 3, 1⟩, SqlValue.int 5, SqlValue.int 6,
     SqlValue.int 4, SqlValue.int 5, SqlValue.int 50, SqlValue.text "t1"]
    ⟨SqlValue.text "AAA", SqlValue.date ⟨2024, 3, 1⟩, SqlValue.int 5, SqlValue.int 6,
     SqlValue.int 4, SqlValue.int 5, SqlValue.int 50, SqlValue.text "t1"⟩
    rfl rfl (by decide)

/-! ## Loader: idempotence of the upsert batch (C4) -/

theorem any_sameKey_iff (t : List DbRow) (r : DbRow) :
    t.any (fun e => sameKey e r) = true ↔ keyOf r ∈ keyList t := by
  rw [List.any_eq_true]
  unfold keyList
  rw [List.mem_map]
  constructor
  · rintro ⟨e, he, hk⟩
    exact ⟨e, he, (sameKey_iff e r).mp hk⟩
  · rintro ⟨e, he, hk⟩
    exact ⟨e, he, (sameKey_iff e r).mpr hk⟩

theorem applyRow_present (t : List DbRow) (r : DbRow) (h : keyOf r ∈ keyList t) :
    applyRow t r = t.map (fun e => replaceIf e r) := by
  unfold applyRow
  rw [if_pos ((any_sameKey_iff t r).mpr h)]

theorem applyRow_absent (t : List DbRow) (r : DbRow) (h : keyOf r ∉ keyList t) :
    applyRow t r = t ++ [r] := by
  unfold applyRow
  rw [if_neg (fun hc => h ((any_sameKey_iff t r).mp hc))]

theorem key_mem_applyRow (t : List DbRow) (r : DbRow) (k : SqlValue × SqlValue)
    (h : k ∈ keyList t) : k ∈ keyList (applyRow t r) := by
  by_cases hp : keyOf r ∈ keyList t
  · rw [applyRow_present t r hp]
    unfold nodupKeys at *
    rw [keyList_map_replace]
    exact h
  · rw [applyRow_absent t r hp]
    unfold keyList
    rw [List.map_append, List.mem_append]
    exact Or.inl h

theorem key_mem_applyRow_self (t : List DbRow) (r : DbRow) :
    keyOf r ∈ keyList (applyRow t r) := by
  by_cases hp : keyOf r ∈ keyList t
  · rw [applyRow_present t r hp, keyList_map_replace]
    exact hp
  · rw [applyRow_absent t r hp]
    unfold keyList
    rw [List.map_append, List.mem_append]
    right
    simp

theorem key_mono_applyAll (rs : List DbRow) :
    ∀ (t : List DbRow) (k : SqlValue × SqlValue), k ∈ keyList t → k ∈ keyList (applyAll t rs) := by
  induction rs with
  | nil => intro t k h; exact h
  | cons r rs ih =>
    intro t k h
    exact ih (applyRow t r) k (key_mem_applyRow t r k h)

theorem key_mem_applyAll (rs : List DbRow) :
    ∀ (t : List DbRow) (r : DbRow), r ∈ rs → keyOf r ∈ keyList (applyAll t rs) := by
  induction rs with
  | nil => intro t r h; cases h
  | cons a as ih =>
    intro t r h
    rcases List.mem_cons.mp h with rfl | hmem
    · exact key_mono_applyAll as (applyRow t r) (keyOf r) (key_mem_applyRow_self t r)
    · exact ih (applyRow t a) r hmem

theorem applyAll_as_map (rs : List DbRow) :
    ∀ t : List DbRow, (∀ r ∈ rs, keyOf r ∈ keyList t) →
      applyAll t rs = t.map (fun e => rs.foldl replaceIf e) := by
  induction rs with
  | nil =>
    intro t _
    exact (list_map_id_of t _ (fun a _ => rfl)).symm
  | cons r rs ih =>
    intro t h
    have hr : keyOf r ∈ keyList t := h r (List.mem_cons_self r rs)
    have step : applyAll t (r :: rs) = applyAll (t.map (fun e => replaceIf e r)) rs := by
      unfold applyAll
      rw [List.foldl_cons, applyRow_present t r hr]
    rw [step, ih (t.map (fun e => replaceIf e r))
      (fun x hx => by rw [keyList_map_replace]; exact h x (List.mem_cons_of_mem r hx))]
    rw [List.map_map]
    rfl

theorem foldl_replaceIf_lastWrite (rs : List DbRow) :
    ∀ e : DbRow, rs.foldl replaceIf e = (lastWrite rs (keyOf e)).getD e := by
  induction rs with
  | nil => intro e; rfl
  | cons r rs ih =>
    intro e
    rw [List.foldl_cons, ih (replaceIf e r), keyOf_replaceIf]
    cases hl : lastWrite rs (keyOf e) with
    | some x =>
      have hcons : lastWrite (r :: rs) (keyOf e) = some x := by
        unfold lastWrite
        rw [hl]
      rw [hcons]
      rfl
    | none =>
      have hcons : lastWrite (r :: rs) (keyOf e) =
          if keyOf r = keyOf e then some r else none := by
        unfold lastWrite
        rw [hl]
      rw [hcons]
      by_cases hk : keyOf r = keyOf e
      · rw [if_pos hk]
        simp only [Option.getD_none, Option.getD_some]
        unfold replaceIf
        rw [if_pos ((sameKey_iff e r).mpr hk.symm)]
      · rw [if_neg hk]
        simp only [Option.getD_none]
        unfold replaceIf
        rw [if_neg (fun hc => hk ((sameKey_iff e r).mp hc).symm)]

theorem mem_applyAll_provenance (rs : List DbRow) :
    ∀ (t : List DbRow) (e : DbRow), e ∈ applyAll t rs →
      match lastWrite rs (keyOf e) with
      | some r => e = r
      | none => e ∈ t := by
  induction rs with
  | nil => intro t e he; exact he
  | cons r rs ih =>
    intro t e he
    have step : applyAll t (r :: rs) = applyAll (applyRow t r) rs := by
      unfold applyAll
      rw [List.foldl_cons]
    rw [step] at he
    have hih := ih (applyRow t r) e he
    show match lastWrite (r :: rs) (keyOf e) with
      | some x => e = x
      | none => e ∈ t
    unfold lastWrite
    cases hl : lastWrite rs (keyOf e) with
    | some x =>
      rw [hl] at hih
      exact hih
    | none =>
      rw [hl] at hih
      by_cases hk : keyOf r = keyOf e
      · rw [if_pos hk]
        by_cases hp : keyOf r ∈ keyList t
        · rw [applyRow_present t r hp] at hih
          rcases List.mem_map.mp hih with ⟨x, hx, hrx⟩
          unfold replaceIf at hrx
          by_cases hs : sameKey x r = true
          · rw [if_pos hs] at hrx
            exact hrx.symm
          · rw [if_neg hs] at hrx
            exfalso
            apply hs
            rw [sameKey_iff]
            rw [← hrx] at hk
            exact hk.symm
        · rw [applyRow_absent t r hp] at hih
          rcases List.mem_append.mp hih with hmem | hmem
          · exfalso
            apply hp
            unfold keyList
            rw [List.mem_map]
            exact ⟨e, hmem, hk.symm⟩
          · rcases List.mem_singleton.mp hmem with rfl
            rfl
      · rw [if_neg hk]
        by_cases hp : keyOf r ∈ keyList t
        · rw [applyRow_present t r hp] at hih
          rcases List.mem_map.mp hih with ⟨x, hx, hrx⟩
          unfold replaceIf at hrx
          by_cases hs : sameKey x r = true
          · rw [if_pos hs] at hrx
            exfalso
            apply hk
            rw [← hrx]
          · rw [if_neg hs] at hrx
            rw [← hrx]
            exact hx
        · rw [applyRow_absent t r hp] at hih
          rcases List.mem_append.mp hih with hmem | hmem
          · exact hmem
          · rcases List.mem_singleton.mp hmem with rfl
            exact absurd rfl hk

theorem applyAll_idem (t : List DbRow) (rs : List DbRow) :
    applyAll (applyAll t rs) rs = applyAll t rs := by
  have hmem : ∀ r ∈ rs, keyOf r ∈ keyList (applyAll t rs) :=
    fun r hr => key_mem_applyAll rs t r hr
  rw [applyAll_as_map rs (applyAll t rs) hmem]
  apply list_map_id_of
  intro e he
  have hp := mem_applyAll_provenance rs t e he
  have hf := foldl_replaceIf_lastWrite rs e
  cases hl : lastWrite rs (keyOf e) with
  | some r =>
    rw [hl] at hp hf
    rw [hf]
    exact (by simpa using hp : e = r).symm
  | none =>
    rw [hl] at hf
    simpa using hf

theorem nodup_applyRow (t : List DbRow) (r : DbRow) (h : nodupKeys t) :
    nodupKeys (applyRow t r) := by
  by_cases hp : keyOf r ∈ keyList t
  · rw [nodupKeys, applyRow_present t r hp, keyList_map_replace]
    exact h
  · rw [nodupKeys, applyRow_absent t r hp]
    unfold keyList at *
    rw [List.map_append]
    simp only [List.map_cons, List.map_nil]
    rw [List.nodup_append]
    exact ⟨h, List.nodup_singleton _, by simpa using hp⟩

theorem nodup_applyAll (rs : List DbRow) :
    ∀ t : List DbRow, nodupKeys t → nodupKeys (applyAll t rs) := by
  induction rs with
  | nil => intro t h; exact h
  | cons r rs ih =>
    intro t h
    exact ih (applyRow t r) (nodup_applyRow t r h)

theorem execStatements_of_bindAll (rows : List (List SqlValue)) :
    ∀ rs : List DbRow, bindAll rows = some rs → rs.all (fun r => !nullKey r) = true →
      ∀ c : Conn, execStatements c rows = (⟨c.committed, applyAll c.draft rs⟩, none) := by
  induction rows with
  | nil =>
    intro rs h _ c
    unfold bindAll at h
    rcases Option.some.injEq _ _ ▸ h with rfl
    rfl
  | cons v rest ih =>
    intro rs h hall c
    unfold bindAll at h
    rcases hb : bindRow v with e | r
    · rw [hb] at h
      cases h
    · rw [hb] at h
      rcases hrest : bindAll rest with _ | rs'
      · rw [hrest] at h
        cases h
      · rw [hrest] at h
        rcases Option.some.injEq _ _ ▸ h with rfl
        have hnr : nullKey r = false := by
          have := List.all_eq_true.mp hall r (List.mem_cons_self r rs')
          simpa using this
        have hallrest : rs'.all (fun x => !nullKey x) = true :=
          List.all_eq_true.mpr (fun x hx =>
            List.all_eq_true.mp hall x (List.mem_cons_of_mem r hx))
        unfold execStatements
        have hstmt : execStmt c v = (⟨c.committed, applyRow c.draft r⟩, none) := by
          simp [execStmt, upsert, hb, hnr]
        rw [hstmt]
        show execStatements ⟨c.committed, applyRow c.draft r⟩ rest =
          (⟨c.committed, applyAll c.draft (r :: rs')⟩, none)
        rw [ih rs' hrest hallrest ⟨c.committed, applyRow c.draft r⟩]
        rfl

theorem execStmt_ok_elim (c : Conn) (v : List SqlValue) (c2 : Conn)
    (h : execStmt c v = (c2, none)) :
    ∃ r, bindRow v = Except.ok r ∧ nullKey r = false ∧
      c2 = ⟨c.committed, applyRow c.draft r⟩ := by
  unfold execStmt at h
  rcases hb : bindRow v with e | r
  · rw [hb] at h
    cases h
  · rw [hb] at h
    unfold upsert at h
    simp only at h
    cases hn : nullKey r with
    | false =>
      rw [hn] at h
      simp only [Bool.false_eq_true, if_false] at h
      have h1 : (⟨c.committed, applyRow c.draft r⟩ : Conn) = c2 := congrArg Prod.fst h
      exact ⟨r, rfl, hn, h1.symm⟩
    | true =>
      rw [hn] at h
      simp at h

theorem execStatements_ok_elim (rows : List (List SqlValue)) :
    ∀ c c2 : Conn, execStatements c rows = (c2, none) →
      ∃ rs, bindAll rows = some rs ∧ rs.all (fun r => !nullKey r) = true ∧
        c2 = ⟨c.committed, applyAll c.draft rs⟩ := by
  induction rows with
  | nil =>
    intro c c2 h
    unfold execStatements at h
    rcases Prod.mk.injEq _ _ _ _ ▸ h with ⟨h1, _⟩
    exact ⟨[], rfl, rfl, h1.symm⟩
  | cons v rest ih =>
    intro c c2 h
    unfold execStatements at h
    rcases hs : execStmt c v with ⟨c1, err1⟩
    rw [hs] at h
    cases err1 with
    | some e => simp at h
    | none =>
      obtain ⟨r, hb, hnr, rfl⟩ := execStmt_ok_elim c v c1 hs
      obtain ⟨rs', hrest, hall, hc2⟩ := ih ⟨c.committed, applyRow c.draft r⟩ c2 h
      refine ⟨r :: rs', ?_, ?_, ?_⟩
      · unfold bindAll
        rw [hb, hrest]
      · exact List.all_eq_true.mpr (fun x hx => by
          rcases List.mem_cons.mp hx with rfl | hx'
          · simpa using hnr
          · exact List.all_eq_true.mp hall x hx')
      · rw [hc2]
        rfl

/-- Claim C4: loading the same canonical record set twice (two successive
successful `dsa_carrega_dados` calls with the identical frame on the same
store) returns exactly the same result as the first call — the stored rows
are unchanged by the second call — and no duplicate key is ever created,
which the composite primary key's uniqueness invariant preserves. -/
theorem load_idempotent (f : Frame) (c : Conn) (hclean : clean c)
    (hok : (dsa_carrega_dados (some f) c).2.1 = LoadOutcome.loaded) :
    dsa_carrega_dados (some f) ((dsa_carrega_dados (some f) c).1) = dsa_carrega_dados (some f) c
    ∧ (nodupKeys c.committed → nodupKeys ((dsa_carrega_dados (some f) c).1).committed) := by
  have hd : c.draft = c.committed := hclean
  have hni : f.rows.isEmpty = false := by
    cases hrows : f.rows with
    | nil =>
      exfalso
      unfold dsa_carrega_dados at hok
      simp [hrows] at hok
    | cons a as => rfl
  rcases hex : execStatements c f.rows with ⟨c2, err⟩
  cases err with
  | some e =>
    exfalso
    unfold dsa_carrega_dados at hok
    simp [hni, hex] at hok
  | none =>
    obtain ⟨rs, hba, hall, hc2⟩ := execStatements_ok_elim f.rows c c2 hex
    rw [hd] at hc2
    have hr1 : (dsa_carrega_dados (some f) c).1 =
        ⟨applyAll c.committed rs, applyAll c.committed rs⟩ := by
      unfold dsa_carrega_dados
      simp [hni, hex, hc2, Conn.commit]
    have hex2 : execStatements ⟨applyAll c.committed rs, applyAll c.committed rs⟩ f.rows =
        (⟨applyAll c.committed rs, applyAll (applyAll c.committed rs) rs⟩, none) :=
      execStatements_of_bindAll f.rows rs hba hall _
    rw [applyAll_idem] at hex2
    constructor
    · rw [hr1]
      unfold dsa_carrega_dados
      simp [hni, hex, hex2, hc2, Conn.commit]
    · intro hnd
      rw [hr1]
      exact nodup_applyAll rs c.committed hnd

/-- Witness for C4: the same one-record batch loaded twice onto an empty
store leaves the result of the first load unchanged. -/
theorem load_idempotent_witness :
    dsa_carrega_dados (some ⟨colunas_desejadas,
        [[SqlValue.text "AAA", SqlValue.date ⟨2024, 3, 1⟩, SqlValue.int 1, SqlValue.int 2,
          SqlValue.int 0, SqlValue.int 1, SqlValue.int 10, SqlValue.text "t0"]]⟩)
      ((dsa_carrega_dados (some ⟨colunas_desejadas,
        [[SqlValue.text "AAA", SqlValue.date ⟨2024, 3, 1⟩, SqlValue.int 1, SqlValue.int 2,
          SqlValue.int 0, SqlValue.int 1, SqlValue.int 10, SqlValue.text "t0"]]⟩) ⟨[], []⟩).1) =
      dsa_carrega_dados (some ⟨colunas_desejadas,
        [[SqlValue.text "AAA", SqlValue.date ⟨2024, 3, 1⟩, SqlValue.int 1, SqlValue.int 2,
          SqlValue.int 0, SqlValue.int 1, SqlValue.int 10, SqlValue.text "t0"]]⟩) ⟨[], []⟩
    ∧ (nodupKeys (Conn.mk [] []).committed →
        nodupKeys ((dsa_carrega_dados (some ⟨colunas_desejadas,
          [[SqlValue.text "AAA", SqlValue.date ⟨2024, 3, 1⟩, SqlValue.int 1, SqlValue.int 2,
            SqlValue.int 0, SqlValue.int 1, SqlValue.int 10, SqlValue.text "t0"]]⟩)
          ⟨[], []⟩).1).committed) :=
  load_idempotent
    ⟨colunas_desejadas,
      [[SqlValue.text "AAA", SqlValue.date ⟨2024, 3, 1⟩, SqlValue.int 1, SqlValue.int 2,
        SqlValue.int 0, SqlValue.int 1, SqlValue.int 10, SqlValue.text "t0"]]⟩
    ⟨[], []⟩ rfl rfl

/-! ## Orchestrator: cleanliness and per-ticker isolation (C1, C7) -/

theorem dsa_carrega_clean (df : Option Frame) (c : Conn) (h : clean c) :
    clean ((dsa_carrega_dados df c).1) := by
  unfold dsa_carrega_dados
  cases df with
  | none => exact h
  | some f =>
    cases hni : f.rows.isEmpty with
    | true => simp [hni]; exact h
    | false =>
      rcases hex : execStatements c f.rows with ⟨c2, err⟩
      cases err <;> simp [hni, hex, Conn.commit, Conn.rollback, clean]

theorem processTicker_clean (P : String → ProviderResult) (now : String) (c : Conn)
    (t : String) (h : clean c) : clean ((processTicker P now c t).1) := by
  unfold processTicker
  rcases hx : dsa_extrai_dados_acao P t with ⟨odf, l1⟩
  rcases ht : dsa_limpa_e_transforma_dados odf t now with ⟨odf2, l2⟩
  cases odf2 with
  | none => simp [hx, ht]; exact h
  | some df =>
    rcases hl : dsa_carrega_dados (some df) c with ⟨c2, res⟩
    have hcl := dsa_carrega_clean (some df) c h
    rw [hl] at hcl
    simp [hx, ht, hl]
    exact hcl

theorem load_empty_unchanged (f : Frame) (c : Conn) (he : f.rows.isEmpty = true) :
    (dsa_carrega_dados (some f) c).1 = c := by
  unfold dsa_carrega_dados
  simp [he]

theorem load_fail_unchanged (f : Frame) (c : Conn) (hclean : clean c)
    (he : (firstError f.rows).isSome = true) : (dsa_carrega_dados (some f) c).1 = c := by
  obtain ⟨cc, cd⟩ := c
  have hd : cd = cc := hclean
  have hni : f.rows.isEmpty = false := by
    cases hr : f.rows with
    | nil => rw [hr] at he; simp [firstError] at he
    | cons a as => rfl
  rcases hex : execStatements ⟨cc, cd⟩ f.rows with ⟨c2, err⟩
  have herr : err = firstError f.rows := by
    have := execStatements_err f.rows ⟨cc, cd⟩
    rw [hex] at this
    exact this
  cases err with
  | none => rw [← herr] at he; simp at he
  | some e =>
    have hcm : c2.committed = cc := by
      have := execStatements_committed f.rows ⟨cc, cd⟩
      rw [hex] at this
      exact this
    unfold dsa_carrega_dados
    simp [hni, hex, Conn.rollback, hcm]
    exact hd.symm

theorem processTicker_skip (P : String → ProviderResult) (now x : String)
    (hskip : tickerSkipped P now x = true) (c : Conn) (h : clean c) :
    (processTicker P now c x).1 = c := by
  unfold tickerSkipped at hskip
  unfold processTicker
  rcases hx : dsa_extrai_dados_acao P x with ⟨odf, l1⟩
  rcases ht : dsa_limpa_e_transforma_dados odf x now with ⟨odf2, l2⟩
  rw [hx] at hskip
  simp only [ht] at hskip
  cases odf2 with
  | none => simp [hx, ht]
  | some df =>
    simp only [Bool.or_eq_true] at hskip
    rcases hl : dsa_carrega_dados (some df) c with ⟨c2, res⟩
    have hc2 : c2 = c := by
      rcases hskip with hemp | hfe
      · have := load_empty_unchanged df c hemp
        rw [hl] at this
        exact this
      · have := load_fail_unchanged df c h hfe
        rw [hl] at this
        exact this
    simp [hx, ht, hl, hc2]

theorem runLoop_clean (P : String → ProviderResult) (now : String) (ts : List String) :
    ∀ c : Conn, clean c → clean ((runLoop P now c ts).1) := by
  induction ts with
  | nil => intro c h; exact h
  | cons t rest ih =>
    intro c h
    exact ih (processTicker P now c t).1 (processTicker_clean P now c t h)

theorem runLoop_skip (P : String → ProviderResult) (now x : String)
    (hskip : tickerSkipped P now x = true) (post : List String) :
    ∀ (pre : List String) (c : Conn), clean c →
      (runLoop P now c (pre ++ x :: post)).1 = (runLoop P now c (pre ++ post)).1 := by
  intro pre
  induction pre with
  | nil =>
    intro c h
    show (runLoop P now (processTicker P now c x).1 post).1 = (runLoop P now c post).1
    rw [processTicker_skip P now x hskip c h]
  | cons p pre ih =>
    intro c h
    show (runLoop P now (processTicker P now c p).1 (pre ++ x :: post)).1 =
      (runLoop P now (processTicker P now c p).1 (pre ++ post)).1
    exact ih (processTicker P now c p).1 (processTicker_clean P now c p h)

theorem extract_log_ne (P : String → ProviderResult) (t : String) :
    (dsa_extrai_dados_acao P t).2 ≠ [] := by
  unfold dsa_extrai_dados_acao
  cases P t with
  | raises e => simp
  | ok dados =>
    cases h : dados.index.isEmpty <;> simp [h]

theorem processTicker_log_ne (P : String → ProviderResult) (now : String) (c : Conn)
    (t : String) : (processTicker P now c t).2 ≠ [] := by
  unfold processTicker
  rcases hx : dsa_extrai_dados_acao P t with ⟨odf, l1⟩
  have hl1 : l1 ≠ [] := by
    have := extract_log_ne P t
    rw [hx] at this
    exact this
  rcases ht : dsa_limpa_e_transforma_dados odf t now with ⟨odf2, l2⟩
  cases odf2 with
  | none => simp [hx, ht, List.append_eq_nil]
  | some df =>
    rcases hl : dsa_carrega_dados (some df) c with ⟨c2, res⟩
    simp [hx, ht, hl, List.append_eq_nil, hl1]

/-- Claim C1: the Orchestrator processes the universe in order through
Extract → Transform → Load; an instrument whose processing yields nothing
(provider error, empty data, empty frame, or a failing load batch — the
`tickerSkipped` condition) is logged and skipped, every remaining instrument
is still processed and the run completes (the connection is still closed),
and the skipped instrument changes nothing in what is stored for any other
instrument: the final store equals that of the same run without it. -/
theorem orchestrator_isolates_failures (P : String → ProviderResult) (now x : String)
    (hskip : tickerSkipped P now x = true) :
    ∀ (pre post : List String) (st : List DbRow),
      (runPipeline (pre ++ x :: post) P (some st) now).store
        = (runPipeline (pre ++ post) P (some st) now).store
      ∧ (runPipeline (pre ++ x :: post) P (some st) now).closes = 1
      ∧ (processTicker P now ⟨st, st⟩ x).2 ≠ [] := by
  intro pre post st
  refine ⟨?_, rfl, processTicker_log_ne P now ⟨st, st⟩ x⟩
  show some ((runLoop P now ⟨st, st⟩ (pre ++ x :: post)).1).committed =
    some ((runLoop P now ⟨st, st⟩ (pre ++ post)).1).committed
  rw [runLoop_skip P now x hskip post pre ⟨st, st⟩ rfl]

/-- Witness for C1: with a provider that raises for every ticker, `BBB` is
skipped between `AAA` and `CCC`, the run closes the connection, and the
store ends as if `BBB` had not been in the universe. -/
theorem orchestrator_isolates_failures_witness :
    (runPipeline (["AAA"] ++ "BBB" :: ["CCC"]) provFalha (some []) "2024-03-08 10:00:00").store
      = (runPipeline (["AAA"] ++ ["CCC"]) provFalha (some []) "2024-03-08 10:00:00").store
    ∧ (runPipeline (["AAA"] ++ "BBB" :: ["CCC"]) provFalha (some []) "2024-03-08 10:00:00").closes = 1
    ∧ (processTicker provFalha "2024-03-08 10:00:00" ⟨[], []⟩ "BBB").2 ≠ [] :=
  orchestrator_isolates_failures provFalha "2024-03-08 10:00:00" "BBB" (by decide)
    ["AAA"] ["CCC"] []

/-- Claim C7: for every run whose initial connection succeeds, the store
connection is acquired exactly once at the start and released exactly once
at the end, regardless of the universe, the provider behaviour, or how many
instruments fail at whatever stage. -/
theorem connection_acquired_released_once (tickers : List String)
    (P : String → ProviderResult) (now : String) (st : List DbRow) :
    (runPipeline tickers P (some st) now).connects = 1
    ∧ (runPipeline tickers P (some st) now).closes = 1 :=
  ⟨rfl, rfl⟩

/-! ## Schema NOT NULL invariant (C10) -/

theorem mem_applyRow (t : List DbRow) (r y : DbRow) (hy : y ∈ applyRow t r) :
    y ∈ t ∨ y = r := by
  unfold applyRow at hy
  by_cases hp : t.any (fun e => sameKey e r) = true
  · rw [if_pos hp] at hy
    rcases List.mem_map.mp hy with ⟨x, hx, hxy⟩
    unfold replaceIf at hxy
    by_cases hs : sameKey x r = true
    · rw [if_pos hs] at hxy
      right
      exact hxy.symm
    · rw [if_neg hs] at hxy
      left
      rw [← hxy]
      exact hx
  · rw [if_neg hp] at hy
    rcases List.mem_append.mp hy with h1 | h1
    · left; exact h1
    · right; exact List.mem_singleton.mp h1

theorem rowKeysNonNull_applyRow (t : List DbRow) (r : DbRow)
    (h : rowKeysNonNull t = true) (hr : nullKey r = false) :
    rowKeysNonNull (applyRow t r) = true := by
  unfold rowKeysNonNull at *
  apply List.all_eq_true.mpr
  intro y hy
  rcases mem_applyRow t r y hy with hmem | rfl
  · exact List.all_eq_true.mp h y hmem
  · simp [hr]

theorem rowKeysNonNull_applyAll (rs : List DbRow) :
    ∀ t : List DbRow, rowKeysNonNull t = true → rs.all (fun r => !nullKey r) = true →
      rowKeysNonNull (applyAll t rs) = true := by
  induction rs with
  | nil => intro t h _; exact h
  | cons r rs ih =>
    intro t h hall
    have hr : nullKey r = false := by
      have := List.all_eq_true.mp hall r (List.mem_cons_self r rs)
      simpa using this
    have hrest : rs.all (fun x => !nullKey x) = true :=
      List.all_eq_true.mpr (fun x hx => List.all_eq_true.mp hall x (List.mem_cons_of_mem r hx))
    exact ih (applyRow t r) (rowKeysNonNull_applyRow t r h hr) hrest

theorem rowKeysNonNull_load (df : Option Frame) (c : Conn)
    (hc : rowKeysNonNull c.committed = true) (hd : rowKeysNonNull c.draft = true) :
    rowKeysNonNull ((dsa_carrega_dados df c).1).committed = true
    ∧ rowKeysNonNull ((dsa_carrega_dados df c).1).draft = true := by
  unfold dsa_carrega_dados
  cases df with
  | none => exact ⟨hc, hd⟩
  | some f =>
    cases hni : f.rows.isEmpty with
    | true =>
      simp [hni]
      exact ⟨hc, hd⟩
    | false =>
      rcases hex : execStatements c f.rows with ⟨c2, err⟩
      have hcm : c2.committed = c.committed := by
        have := execStatements_committed f.rows c
        rw [hex] at this
        exact this
      cases err with
      | none =>
        obtain ⟨rs, hba, hall, hc2⟩ := execStatements_ok_elim f.rows c c2 hex
        have hdr : rowKeysNonNull (applyAll c.draft rs) = true :=
          rowKeysNonNull_applyAll rs c.draft hd hall
        simp [hni, hex, Conn.commit, hc2]
        exact hdr
      | some e =>
        simp [hni, hex, Conn.rollback, hcm]
        exact hc

theorem inv_processTicker (P : String → ProviderResult) (now : String) (c : Conn) (t : String)
    (hc : rowKeysNonNull c.committed = true) (hd : rowKeysNonNull c.draft = true) :
    rowKeysNonNull ((processTicker P now c t).1).committed = true
    ∧ rowKeysNonNull ((processTicker P now c t).1).draft = true := by
  unfold processTicker
  rcases hx : dsa_extrai_dados_acao P t with ⟨odf, l1⟩
  rcases ht : dsa_limpa_e_transforma_dados odf t now with ⟨odf2, l2⟩
  cases odf2 with
  | none =>
    simp [hx, ht]
    exact ⟨hc, hd⟩
  | some df =>
    rcases hl : dsa_carrega_dados (some df) c with ⟨c2, res⟩
    have hinv := rowKeysNonNull_load (some df) c hc hd
    rw [hl] at hinv
    simp [hx, ht, hl]
    exact hinv

theorem inv_runLoop (P : String → ProviderResult) (now : String) (ts : List String) :
    ∀ c : Conn, rowKeysNonNull c.committed = true → rowKeysNonNull c.draft = true →
      rowKeysNonNull ((runLoop P now c ts).1).committed = true
      ∧ rowKeysNonNull ((runLoop P now c ts).1).draft = true := by
  induction ts with
  | nil => intro c hc hd; exact ⟨hc, hd⟩
  | cons t rest ih =>
    intro c hc hd
    have hstep := inv_processTicker P now c t hc hd
    exact ih (processTicker P now c t).1 hstep.1 hstep.2

/-- Claim C10: the created schema declares both key columns NOT NULL (in
addition to making them the composite primary key), and consequently every
stored row reachable by any run of the pipeline — any universe, any provider
behaviour — has a non-null ticker and a non-null trading date, provided the
store started that way. -/
theorem stored_keys_never_null :
    ((tableColumns.filter (fun cd => cd.notNull)).map (fun cd => cd.name)
        = ["ticker", "data_pregao"]
      ∧ primaryKeyCols = ["ticker", "data_pregao"])
    ∧ ∀ (tickers : List String) (P : String → ProviderResult) (now : String) (st : List DbRow),
        rowKeysNonNull st = true →
        ∀ tb, (runPipeline tickers P (some st) now).store = some tb →
          rowKeysNonNull tb = true := by
  refine ⟨⟨rfl, rfl⟩, ?_⟩
  intro tickers P now st hst tb htb
  have hinv := inv_runLoop P now tickers ⟨st, st⟩ hst hst
  have hsome : some ((runLoop P now ⟨st, st⟩ tickers).1).committed = some tb := htb
  have heq : ((runLoop P now ⟨st, st⟩ tickers).1).committed = tb := by
    injection hsome
  rw [← heq]
  exact hinv.1

/-- Witness for C10: a run over one ticker with a raising provider on an
empty store keeps the key-columns-non-null invariant. -/
theorem stored_keys_never_null_witness : rowKeysNonNull ([] : List DbRow) = true :=
  stored_keys_never_null.2 ["PETR4.SA"] provFalha "2024-03-08 10:00:00" [] rfl [] rfl

/-! ## Orchestrator end-to-end scenario and return value (C8) -/

/-- Counterexample to claim C8 as stated: `main` returns `None` (here
`Unit`), never a `RunSummary` — its return value is identical whether `BBB`
failed (provider raises) or succeeded, so the returned value records no
per-instrument outcome and cannot mark `BBB` as failed. -/
theorem main_returns_no_summary :
    (runPipeline ["AAA", "BBB"] provC8 (some []) "2024-03-08 10:00:00").ret
      = (runPipeline ["AAA", "BBB"] provAllOk (some []) "2024-03-08 10:00:00").ret
    ∧ (runPipeline ["AAA", "BBB"] provC8 (some []) "2024-03-08 10:00:00").ret = () :=
  ⟨rfl, rfl⟩

/-- Claim C8 as amended: in the end-to-end scenario (universe
`["AAA", "BBB"]`, provider returns 5 valid rows for `AAA` and raises for
`BBB`), the run completes (the connection is closed), 5 rows are stored for
`AAA` and zero for `BBB`; but `main` returns nothing, and `BBB`'s failure is
recorded only in the emitted log (extraction error plus skip warning), not
in a returned summary. -/
theorem scenario_aaa_bbb :
    ((runPipeline ["AAA", "BBB"] provC8 (some []) "2024-03-08 10:00:00").store.map
        (fun tb => ((tb.filter (fun r => r.ticker == SqlValue.text "AAA")).length,
                    (tb.filter (fun r => r.ticker == SqlValue.text "BBB")).length)))
      = some (5, 0)
    ∧ (runPipeline ["AAA", "BBB"] provC8 (some []) "2024-03-08 10:00:00").closes = 1
    ∧ LogEvent.error "Falha ao extrair dados para BBB: HTTP Error 404"
        ∈ (runPipeline ["AAA", "BBB"] provC8 (some []) "2024-03-08 10:00:00").log
    ∧ LogEvent.warning "Processamento pulado para o ticker BBB devido a ausencia de dados."
        ∈ (runPipeline ["AAA", "BBB"] provC8 (some []) "2024-03-08 10:00:00").log := by
  refine ⟨rfl, rfl, ?_, ?_⟩ <;> decide
